import Mathlib

/-!
Shallow embedding of the fixed-width record decoder, the keyword
classification engine and the batch parser driver of the two PU11
parsers (`parse_sbj_pu11.py` and `parse_tej_pu11.py`).

Byte buffers are lists of naturals (one per byte).  The legacy Big5
codec is external table data, so the decoder is parameterised by an
arbitrary decode function `dec : Bytes → String` standing for
`bytes.decode('big5', errors='replace')`; every theorem that touches
decoding is proved for all such functions.  For concrete instances we
use `asciiReplaceDecode`, which agrees with the Big5 codec on buffers
made of single-byte (ASCII) characters.
-/

set_option maxHeartbeats 1000000
set_option maxRecDepth 8192

/-- Byte buffers: one natural number (below 256) per byte. -/
abbrev Bytes := List Nat

/-- charsLead pat l is true when pat is an initial segment of l. -/
def charsLead : List Char → List Char → Bool
  | [], _ => true
  | _ :: _, [] => false
  | p :: ps, c :: cs => p == c && charsLead ps cs

/-- charsContain pat l is true when pat occurs contiguously inside l. -/
def charsContain : List Char → List Char → Bool
  | pat, [] => pat == []
  | pat, l@(_ :: cs) => charsLead pat l || charsContain pat cs

/-- pyIn k t models the Python substring test `k in t`. -/
def pyIn (k t : String) : Bool := charsContain k.data t.data

/-- pyIsSpace models Python str.isspace on one character: ASCII space,
the control characters 9..13 and 28..31, and the Unicode space
separators (NEL, NBSP, ogham space, the 0x2000..0x200a range, line and
paragraph separators, narrow NBSP, math space, ideographic space). -/
def pyIsSpace (c : Char) : Bool :=
  c == ' ' || ('\t' ≤ c && c ≤ '\r') ||
  (0x1c ≤ c.toNat && c.toNat ≤ 0x1f) ||
  c.toNat == 0x85 || c.toNat == 0xa0 || c.toNat == 0x1680 ||
  (0x2000 ≤ c.toNat && c.toNat ≤ 0x200a) ||
  c.toNat == 0x2028 || c.toNat == 0x2029 || c.toNat == 0x202f ||
  c.toNat == 0x205f || c.toNat == 0x3000

/-- pyStrip models Python str.strip() with no argument: remove leading
and trailing whitespace characters. -/
def pyStrip (s : String) : String :=
  ⟨((s.data.dropWhile pyIsSpace).reverse.dropWhile pyIsSpace).reverse⟩

/-- pyRjust w s models Python s.rjust(w): left-pad with ASCII spaces to
width w; a string of length at least w is returned unchanged. -/
def pyRjust (w : Nat) (s : String) : String :=
  if s.length < w then ⟨List.replicate (w - s.length) ' ' ++ s.data⟩ else s

/-- lastChars n s models the Python slice s[-n:] for positive n: the
trailing n characters, or the whole string when it is shorter than n. -/
def lastChars (n : Nat) (s : String) : String := ⟨s.data.drop (s.data.length - n)⟩

/-- isAsciiDigit c is true on the ASCII digits 0..9. -/
def isAsciiDigit (c : Char) : Bool := '0' ≤ c && c ≤ '9'

/-- digitsVal reads a list of ASCII digits as a base-10 numeral. -/
def digitsVal (cs : List Char) : Nat := cs.foldl (fun a c => a * 10 + (c.toNat - 48)) 0

/-- pyIntDigits parses a nonempty all-digit character list, else fails. -/
def pyIntDigits (cs : List Char) : Option Nat :=
  if !cs.isEmpty && cs.all isAsciiDigit then some (digitsVal cs) else none

/-- pyIntCore models Python int(...) applied to an already stripped
string: an optional single sign followed by a nonempty run of decimal
digits; anything else fails.  (Python additionally accepts underscore
digit separators and non-ASCII decimal digits, which the single-byte
numeric regions of this feed never produce.) -/
def pyIntCore : List Char → Option Int
  | [] => none
  | c :: rest =>
    if c == '+' then (pyIntDigits rest).map (fun n => (n : Int))
    else if c == '-' then (pyIntDigits rest).map (fun n => -(n : Int))
    else (pyIntDigits (c :: rest)).map (fun n => (n : Int))

/-- pyInt applies the sign-and-digits parse to the characters of the
string. -/
def pyInt (s : String) : Option Int := pyIntCore s.data

/-- rstripCRLF models bytes.rstrip applied with the two line-terminator
bytes: drop trailing CR (13) and LF (10) bytes. -/
def rstripCRLF (bs : Bytes) : Bytes :=
  (bs.reverse.dropWhile (fun b => b == 13 || b == 10)).reverse

/-- Field kinds: 'A' = alpha/text, 'I' = integer. -/
inductive FType
  | A
  | I
  deriving DecidableEq, Repr

/-- One line of the field definition tables: name, start byte, byte
length, kind. -/
structure FieldDef where
  name : String
  start : Nat
  len : Nat
  ftype : FType
  deriving DecidableEq, Repr

/-- Decoded field values: integer-or-null for 'I' fields, text for 'A'
fields. -/
inductive Value
  | int : Option Int → Value
  | text : String → Value
  deriving DecidableEq, Repr

/-- Field table of SBJ_PU11_Parser (subject layout), transcribed from
its constructor. -/
def sbjFieldDefs : List FieldDef :=
  [⟨"BAN", 0, 8, .A⟩,
   ⟨"CODE", 8, 7, .A⟩,
   ⟨"NAME", 15, 8, .A⟩,
   ⟨"D_REALS", 23, 8, .I⟩,
   ⟨"OD", 31, 2, .I⟩,
   ⟨"HR_REALS", 33, 6, .I⟩,
   ⟨"OCCUR_D", 39, 8, .I⟩,
   ⟨"BANDAYHR", 47, 24, .A⟩,
   ⟨"RULB", 71, 3, .I⟩,
   ⟨"ERX", 74, 1, .A⟩,
   ⟨"RULC", 75, 2, .I⟩,
   ⟨"TXTT", 77, 210, .A⟩,
   ⟨"MKT", 287, 3, .A⟩]

/-- Field table of PU11Parser (content layout), transcribed from its
constructor. -/
def tejFieldDefs : List FieldDef :=
  [⟨"BAN", 0, 8, .A⟩,
   ⟨"CODE", 8, 7, .A⟩,
   ⟨"NAME", 15, 20, .A⟩,
   ⟨"GDATE", 35, 8, .I⟩,
   ⟨"HHMMSS", 43, 6, .I⟩,
   ⟨"DATE", 49, 8, .I⟩,
   ⟨"OD", 57, 2, .I⟩,
   ⟨"HR_REALS", 59, 6, .I⟩,
   ⟨"FILE_NM", 65, 70, .A⟩,
   ⟨"OCCUR_D", 135, 8, .I⟩,
   ⟨"SPOKER", 143, 12, .A⟩,
   ⟨"D_REALS", 155, 8, .I⟩,
   ⟨"KEYIN1", 163, 8, .I⟩,
   ⟨"KEY_HR", 171, 4, .I⟩,
   ⟨"RULA", 175, 3, .I⟩,
   ⟨"RULB", 178, 3, .I⟩,
   ⟨"DBCL", 181, 9, .A⟩,
   ⟨"MKT", 190, 3, .A⟩,
   ⟨"NO", 193, 5, .A⟩,
   ⟨"TXT", 198, 70, .A⟩]

/-- Total record length: max(start + length) over the field
definitions, as computed in both constructors. -/
def totalLength (fields : List FieldDef) : Nat :=
  (fields.map (fun f => f.start + f.len)).foldr max 0

/-- padBuffer models `raw.ljust(total_length, b' ')` guarded by the
length test: a buffer shorter than the total length is right-padded
with space bytes (32). -/
def padBuffer (fields : List FieldDef) (raw : Bytes) : Bytes :=
  if raw.length < totalLength fields then
    raw ++ List.replicate (totalLength fields - raw.length) 32
  else raw

/-- sliceChunk models the Python slice raw[start : start+length]. -/
def sliceChunk (raw : Bytes) (f : FieldDef) : Bytes := (raw.drop f.start).take f.len

/-- decodeField models one iteration of the field loop shared by both
parsers: slice, decode with replacement, strip, then coerce by kind
(`int(text)` with None on failure for 'I'; the text itself for 'A' —
`text or ''` is the identity on an already stripped string). -/
def decodeField (dec : Bytes → String) (raw : Bytes) (f : FieldDef) : Value :=
  let text := pyStrip (dec (sliceChunk raw f))
  match f.ftype with
  | .I => .int (pyInt text)
  | .A => .text text

/-- decodeRecord models the per-line decode of both parsers: pad the
stripped line if short, then produce one (name, value) entry per field
definition. -/
def decodeRecord (dec : Bytes → String) (fields : List FieldDef) (raw : Bytes) :
    List (String × Value) :=
  fields.map (fun f => (f.name, decodeField dec (padBuffer fields raw) f))

/-- getInt models rec.get(name) on an integer field: the stored
integer-or-None, and None when the key is absent. -/
def getInt (r : List (String × Value)) (name : String) : Option Int :=
  match r.lookup name with
  | some (Value.int v) => v
  | _ => none

/-- getText models rec.get(name, '') on a text field. -/
def getText (r : List (String × Value)) (name : String) : String :=
  match r.lookup name with
  | some (Value.text s) => s
  | _ => ""

/-- Rule 1 of classify: RULB equal to 24. -/
def cond1 (rulb : Option Int) : Bool := rulb == some 24

/-- Rule 2 of classify: investment/organisational structure keywords. -/
def cond2 (text : String) : Bool :=
  ["投資架構", "組織架構"].any (fun kw => pyIn kw text)

/-- Rule 3 of classify: the joint-venture keyword. -/
def cond3 (text : String) : Bool := pyIn "合資" text

/-- Rule 4 of classify: commissioned construction and engineering
keywords. -/
def cond4 (text : String) : Bool :=
  pyIn "租地委建" text ||
  (["委建", "承攬", "委託興建"].any (fun kw => pyIn kw text)) ||
  pyIn "工程" text

/-- Rule 5 of classify: lease keywords, excluded by buy/sell keywords. -/
def cond5 (text : String) : Bool :=
  (["購買", "出售"].all (fun kw => !pyIn kw text)) &&
  (["租", "使用權資產", "租賃資產"].any (fun kw => pyIn kw text))

/-- Rule 6 of classify: structured/derivative product keywords. -/
def cond6 (text : String) : Bool :=
  ["結構性", "衍生性", "理財產品", "基金", "信託計畫", "受益憑證", "收益憑證",
   "理財商品", "資產基礎證券", "組合式商品", "信託單位"].any (fun kw => pyIn kw text)

/-- Rule 7 of classify, first part: the joint-construction keyword. -/
def cond7a (text : String) : Bool := pyIn "合建" text

/-- Rule 7 of classify, second part: real-estate keywords with the
bank-name false positive excluded. -/
def cond7b (text : String) : Bool :=
  !pyIn "土地銀行" text &&
  (["土地", "建物", "建築物", "基地", "不動產", "地上權", "廠", "用地",
    "房地", "房產", "房屋", "地號", "小段", "建案", "預售屋", "大樓",
    "辦公室", "車位", "開發案", "都市更新", "都更", "容移", "購地",
    "容積", "營運總部"].any (fun kw => pyIn kw text))

/-- Rule 8 of classify: equipment / fixed-asset / intangible-asset
keywords. -/
def cond8 (text : String) : Bool :=
  ["設備", "固定資產", "生產線", "營業資產", "軟體", "無形資產", "租賃轉讓權", "電站",
   "貨櫃", "散裝", "門店", "飛機", "船舶", "其他資產", "冷凍櫃", "新船",
   "散貨", "鋪纜", "營業用資產", "售機案", "貨機", "發動機", "客機",
   "不良債權", "授信資產", "營運資產", "商標", "專利", "伺服器", "智慧財產"].any
    (fun kw => pyIn kw text)

/-- Rule 9 of classify: merger-and-acquisition keywords. -/
def cond9 (text : String) : Bool :=
  ["收購", "合併", "併購", "購併", "分割", "股份轉換"].any (fun kw => pyIn kw text)

/-- Rule 10 of classify: interest-bearing instrument keywords. -/
def cond10 (text : String) : Bool :=
  ["收益證券", "公司債", "定期存單", "金融債", "債券"].any (fun kw => pyIn kw text)

/-- Rule 11 of classify: equity/shareholding keywords. -/
def cond11 (text : String) : Bool :=
  ["股權", "持股", "普通股", "特別股", "股票", "有價證", "權益", "金融資產",
   "認購", "現金增", "增資", "投資", "增發新股", "累計", "設立", "新設",
   "籌設", "發行新股", "股份案", "全部股份", "現增"].any (fun kw => pyIn kw text)

/-- Rule 12 of classify: acquisition-announcement keywords, excluded by
two longer asset-acquisition phrases. -/
def cond12 (text : String) : Bool :=
  (["公告取得資產", "公告取得重大資產"].all (fun kw => !pyIn kw text)) &&
  (["公告取得", "取得股份"].any (fun kw => pyIn kw text))

/-- First fallback check of classify: the share character occurs in the
stripped last-2 suffix of the right-aligned subject. -/
def fallback1 (text : String) : Bool :=
  pyIn "股" (pyStrip (lastChars 2 (pyRjust 210 text)))

/-- Second fallback check of classify: the stripped last-4 suffix of
the right-aligned subject is exactly the shares or company marker. -/
def fallback2 (text : String) : Bool :=
  pyStrip (lastChars 4 (pyRjust 210 text)) == "股份" ||
  pyStrip (lastChars 4 (pyRjust 210 text)) == "公司"

/-- Disjunction of classification rules 1 through 12 (rule 7 has two
parts in the source). -/
def rules1to12Match (text : String) (rulb : Option Int) : Bool :=
  cond1 rulb || cond2 text || cond3 text || cond4 text || cond5 text ||
  cond6 text || cond7a text || cond7b text || cond8 text || cond9 text ||
  cond10 text || cond11 text || cond12 text

/-- classify models the classify closure of SBJ_PU11_Parser.parse_file:
the ordered keyword cascade with strict short-circuit, then the
right-aligned suffix fallback, default 99. -/
def classify (text : String) (rulb : Option Int) : Int :=
  if cond1 rulb then 1
  else if cond2 text then 4
  else if cond3 text then 2
  else if cond4 text then 13
  else if cond5 text then 19
  else if cond6 text then 8
  else if cond7a text then 12
  else if cond7b text then 11
  else if cond8 text then 18
  else if cond9 text then 3
  else if cond10 text then 7
  else if cond11 text then 1
  else if cond12 text then 1
  else if fallback1 text then 2
  else if fallback2 text then 1
  else 99

/-- sbjProcessLine models the per-line body of
SBJ_PU11_Parser.parse_file after the blank test: decode the fields,
append TT1/TT2 (untrimmed right-aligned suffixes) and the CL category. -/
def sbjProcessLine (dec : Bytes → String) (raw : Bytes) : List (String × Value) :=
  let rec0 := decodeRecord dec sbjFieldDefs raw
  let tx := getText rec0 "TXTT"
  let aa := pyRjust 210 tx
  rec0 ++
    [("TT1", Value.text (lastChars 2 aa)),
     ("TT2", Value.text (lastChars 4 aa)),
     ("CL", Value.int (some (classify tx (getInt rec0 "RULB"))))]

/-- tejProcessLine models the per-line body of PU11Parser.parse_file
after the blank test: decode the fields, append the derived HM_ANN
(HR_REALS floor-divided by 100, None if HR_REALS is None) and CLA
(first character of DBCL, empty if DBCL is empty). -/
def tejProcessLine (dec : Bytes → String) (raw : Bytes) : List (String × Value) :=
  let rec0 := decodeRecord dec tejFieldDefs raw
  let hm : Option Int :=
    match getInt rec0 "HR_REALS" with
    | some h => some (Int.fdiv h 100)
    | none => none
  let dbcl := getText rec0 "DBCL"
  rec0 ++
    [("HM_ANN", Value.int hm),
     ("CLA", Value.text (if dbcl == "" then "" else ⟨dbcl.data.take 1⟩))]

/-- breakCond models the loop guard `if max_lines and ln > max_lines`
of both parsers, including Python truthiness: None and 0 never break. -/
def breakCond (maxLines : Option Int) (ln : Nat) : Bool :=
  match maxLines with
  | none => false
  | some m => m != 0 && m < (ln : Int)

/-- parseGo is the line loop shared by both parsers: 1-based raw-line
counter, break on the guard, skip lines blank after CR/LF stripping,
process the rest in order. -/
def parseGo {α : Type} (proc : Bytes → α) (maxLines : Option Int) :
    Nat → List Bytes → List α
  | _, [] => []
  | ln, raw :: rest =>
    if breakCond maxLines ln then []
    else
      let r := rstripCRLF raw
      if r.isEmpty then parseGo proc maxLines (ln + 1) rest
      else proc r :: parseGo proc maxLines (ln + 1) rest

/-- parseFile runs the line loop from line number 1. -/
def parseFile {α : Type} (proc : Bytes → α) (maxLines : Option Int)
    (lines : List Bytes) : List α :=
  parseGo proc maxLines 1 lines

/-- The record list produced by SBJ_PU11_Parser.parse_file. -/
def sbjParseFile (dec : Bytes → String) (maxLines : Option Int)
    (lines : List Bytes) : List (List (String × Value)) :=
  parseFile (sbjProcessLine dec) maxLines lines

/-- The record list produced by PU11Parser.parse_file. -/
def tejParseFile (dec : Bytes → String) (maxLines : Option Int)
    (lines : List Bytes) : List (List (String × Value)) :=
  parseFile (tejProcessLine dec) maxLines lines

/-- Outcome of one driver invocation: the empty-result condition
(signalled with a warning and an empty table, never an exception) or a
table of records. -/
inductive ParseOutcome (α : Type)
  | emptyResult
  | table (rows : List α)
  deriving DecidableEq, Repr

/-- sbjParse models the tail of SBJ_PU11_Parser.parse_file: zero
records becomes the explicitly signalled empty result (a logged warning
and an empty frame), otherwise the ordered record table. -/
def sbjParse (dec : Bytes → String) (maxLines : Option Int)
    (lines : List Bytes) : ParseOutcome (List (String × Value)) :=
  let rs := sbjParseFile dec maxLines lines
  if rs.isEmpty then .emptyResult else .table rs

/-- Concrete decode function used for instances: agrees with the Big5
codec on buffers of single-byte (ASCII) characters; other bytes become
the replacement character. -/
def asciiReplaceDecode (bs : Bytes) : String :=
  ⟨bs.map (fun b => if b < 128 then Char.ofNat b else '�')⟩

/-- asciiBytes encodes a pure-ASCII string as a byte buffer. -/
def asciiBytes (s : String) : Bytes := s.data.map Char.toNat

/-- Unfolding equation for charsContain on nil. -/
theorem charsContain_nil (pat : List Char) : charsContain pat [] = (pat == []) := rfl

/-- Unfolding equation for charsContain on cons. -/
theorem charsContain_cons (pat : List Char) (a : Char) (cs : List Char) :
    charsContain pat (a :: cs) = (charsLead pat (a :: cs) || charsContain pat cs) := rfl

/-- A character list is an initial segment of itself. -/
theorem charsLead_refl : ∀ l : List Char, charsLead l l = true
  | [] => rfl
  | c :: cs => by simp [charsLead, charsLead_refl cs]

/-- A character list occurs inside itself. -/
theorem charsContain_self : ∀ k : List Char, charsContain k k = true
  | [] => rfl
  | c :: cs => by rw [charsContain_cons]; simp [charsLead_refl]

/-- A character list occurs inside any extension of itself on the left. -/
theorem charsContain_append_self (k : List Char) :
    ∀ t : List Char, charsContain k (t ++ k) = true := by
  intro t
  induction t with
  | nil => simpa using charsContain_self k
  | cons a t ih => rw [List.cons_append, charsContain_cons, ih]; simp

/-- Containment of a single character is membership. -/
theorem charsContain_singleton_iff (c : Char) :
    ∀ l : List Char, charsContain [c] l = true ↔ c ∈ l := by
  intro l
  induction l with
  | nil => simp [charsContain_nil]
  | cons a t ih => rw [charsContain_cons]; simp [charsLead, ih, List.mem_cons]

/-- dropWhile keeps every member that fails the predicate. -/
theorem mem_dropWhile_iff {α : Type} {p : α → Bool} {c : α} (hc : p c = false) :
    ∀ l : List α, c ∈ l.dropWhile p ↔ c ∈ l := by
  intro l
  induction l with
  | nil => simp
  | cons a t ih =>
    by_cases ha : p a
    · rw [List.dropWhile_cons_of_pos ha]
      constructor
      · exact fun h => List.mem_cons_of_mem a (ih.mp h)
      · intro h
        rcases List.mem_cons.mp h with h | h
        · subst h; rw [ha] at hc; cases hc
        · exact ih.mpr h
    · rw [List.dropWhile_cons_of_neg ha]

/-- Stripping preserves membership of non-whitespace characters. -/
theorem mem_pyStrip_iff {c : Char} (hc : pyIsSpace c = false) (s : String) :
    c ∈ (pyStrip s).data ↔ c ∈ s.data := by
  unfold pyStrip
  rw [show (⟨((s.data.dropWhile pyIsSpace).reverse.dropWhile pyIsSpace).reverse⟩ : String).data =
        ((s.data.dropWhile pyIsSpace).reverse.dropWhile pyIsSpace).reverse from rfl]
  rw [List.mem_reverse, mem_dropWhile_iff hc, List.mem_reverse, mem_dropWhile_iff hc]

/-- Substring search for the single share character is insensitive to
stripping. -/
theorem pyIn_share_pyStrip (s : String) : pyIn "股" (pyStrip s) = pyIn "股" s := by
  have hks : "股".data = ['股'] := rfl
  cases hb : pyIn "股" s with
  | true =>
    have hmem : '股' ∈ s.data :=
      (charsContain_singleton_iff '股' s.data).mp (by simpa [pyIn, hks] using hb)
    have : '股' ∈ (pyStrip s).data := (mem_pyStrip_iff (by decide) s).mpr hmem
    simpa [pyIn, hks] using (charsContain_singleton_iff '股' (pyStrip s).data).mpr this
  | false =>
    have hnmem : '股' ∉ s.data := fun hmem => by
      have h2 := (charsContain_singleton_iff '股' s.data).mpr hmem
      rw [show charsContain ['股'] s.data = pyIn "股" s from rfl, hb] at h2
      cases h2
    cases hb2 : pyIn "股" (pyStrip s) with
    | true =>
      exact absurd
        ((mem_pyStrip_iff (by decide) s).mp
          ((charsContain_singleton_iff '股' (pyStrip s).data).mp
            (by simpa [pyIn, hks] using hb2))) hnmem
    | false => rfl

/-- A character list containing a non-digit fails the digit parse. -/
theorem pyIntDigits_of_not_digit {c : Char} {cs : List Char} (hm : c ∈ cs)
    (hd : isAsciiDigit c = false) : pyIntDigits cs = none := by
  unfold pyIntDigits
  have hall : cs.all isAsciiDigit = false := by
    cases hall : cs.all isAsciiDigit with
    | true =>
      have := List.all_eq_true.mp hall c hm
      rw [hd] at this; cases this
    | false => rfl
  simp [hall]

/-- A string containing the replacement character never parses as an
integer. -/
theorem pyIntCore_replacement : ∀ cs : List Char, '�' ∈ cs → pyIntCore cs = none := by
  intro cs hm
  cases cs with
  | nil => cases hm
  | cons c rest =>
    rw [show pyIntCore (c :: rest) =
        (if c == '+' then (pyIntDigits rest).map (fun n => (n : Int))
         else if c == '-' then (pyIntDigits rest).map (fun n => -(n : Int))
         else (pyIntDigits (c :: rest)).map (fun n => (n : Int))) from rfl]
    by_cases hc : c = '�'
    · subst hc
      rw [if_neg (by decide), if_neg (by decide),
        pyIntDigits_of_not_digit (List.mem_cons_self _ _) (by decide)]
      rfl
    · have hrest : '�' ∈ rest := by
        rcases List.mem_cons.mp hm with h | h
        · exact absurd h.symm hc
        · exact h
      by_cases hp : (c == '+') = true
      · rw [if_pos hp, pyIntDigits_of_not_digit hrest (by decide)]; rfl
      · rw [if_neg hp]
        by_cases hn : (c == '-') = true
        · rw [if_pos hn, pyIntDigits_of_not_digit hrest (by decide)]; rfl
        · rw [if_neg hn,
            pyIntDigits_of_not_digit (List.mem_cons_of_mem c hrest) (by decide)]
          rfl

/-- A string containing the replacement character never parses as an
integer. -/
theorem pyInt_replacement {s : String} (hm : '�' ∈ s.data) : pyInt s = none :=
  pyIntCore_replacement s.data hm

/-- dropWhile swallows a replicated block that satisfies the predicate. -/
theorem dropWhile_replicate_append {α : Type} {p : α → Bool} {a : α} (ha : p a = true) :
    ∀ (n : Nat) (l : List α),
      List.dropWhile p (List.replicate n a ++ l) = List.dropWhile p l := by
  intro n
  induction n with
  | zero => intro l; rfl
  | succ n ih =>
    intro l
    rw [List.replicate_succ, List.cons_append, List.dropWhile_cons_of_pos ha, ih]

/-- Stripping ignores leading replicated spaces. -/
theorem pyStrip_replicate_space (n : Nat) (cs : List Char) :
    pyStrip ⟨List.replicate n ' ' ++ cs⟩ = pyStrip ⟨cs⟩ := by
  unfold pyStrip
  rw [show (⟨List.replicate n ' ' ++ cs⟩ : String).data = List.replicate n ' ' ++ cs from rfl,
    dropWhile_replicate_append (by decide : pyIsSpace ' ' = true)]

/-- Dropping into a replicated block leaves the remaining block. -/
theorem drop_replicate_append {α : Type} (a : α) :
    ∀ (k m : Nat) (l : List α), k ≤ m →
      List.drop k (List.replicate m a ++ l) = List.replicate (m - k) a ++ l := by
  intro k
  induction k with
  | zero => intro m l _; rfl
  | succ k ih =>
    intro m l hk
    cases m with
    | zero => cases hk
    | succ m =>
      rw [List.replicate_succ, List.cons_append, List.drop_succ_cons,
        ih m l (Nat.le_of_succ_le_succ hk), Nat.succ_sub_succ]

/-- The trailing n characters of the right-aligned form of a string no
longer than n are the left-padding spaces followed by the string. -/
theorem lastChars_pyRjust {text : String} {n w : Nat} (hn : text.length ≤ n)
    (hw : n ≤ w) :
    lastChars n (pyRjust w text) = ⟨List.replicate (n - text.length) ' ' ++ text.data⟩ := by
  have hdl : text.data.length = text.length := rfl
  by_cases hlt : text.length < w
  · have h1 : pyRjust w text = ⟨List.replicate (w - text.length) ' ' ++ text.data⟩ := by
      unfold pyRjust
      rw [if_pos hlt]
    rw [h1]
    unfold lastChars
    have h2 : (⟨List.replicate (w - text.length) ' ' ++ text.data⟩ : String).data =
        List.replicate (w - text.length) ' ' ++ text.data := rfl
    rw [h2]
    have hlen : (List.replicate (w - text.length) ' ' ++ text.data).length = w := by
      rw [List.length_append, List.length_replicate, hdl]
      omega
    rw [hlen]
    rw [drop_replicate_append ' ' (w - n) (w - text.length) text.data (by omega)]
    have h3 : w - text.length - (w - n) = n - text.length := by omega
    rw [h3]
  · have h1 : pyRjust w text = text := by
      unfold pyRjust
      rw [if_neg hlt]
    rw [h1]
    unfold lastChars
    have h4 : text.data.length - n = 0 := by omega
    rw [h4, List.drop_zero]
    have h5 : n - text.length = 0 := by omega
    rw [h5, List.replicate_zero, List.nil_append]

/-- Unbounded line loop: the result is the processed stripped non-blank
lines in order, independent of the counter. -/
theorem parseGo_none_filter {α : Type} (proc : Bytes → α) :
    ∀ (lines : List Bytes) (ln : Nat),
      parseGo proc none ln lines =
        ((lines.map rstripCRLF).filter (fun r => !r.isEmpty)).map proc := by
  intro lines
  induction lines with
  | nil => intro ln; rfl
  | cons raw rest ih =>
    intro ln
    rw [parseGo]
    have hb : breakCond none ln = false := rfl
    rw [hb]
    simp only [Bool.false_eq_true, if_false, List.map_cons, List.filter_cons]
    by_cases he : (rstripCRLF raw).isEmpty
    · simp [he, ih (ln + 1)]
    · simp [he, ih (ln + 1)]

/-- A zero bound never breaks: it behaves exactly like no bound. -/
theorem parseGo_zero {α : Type} (proc : Bytes → α) :
    ∀ (lines : List Bytes) (ln : Nat),
      parseGo proc (some 0) ln lines = parseGo proc none ln lines := by
  intro lines
  induction lines with
  | nil => intro ln; rfl
  | cons raw rest ih =>
    intro ln
    rw [parseGo, parseGo]
    have h0 : breakCond (some 0) ln = false := by simp [breakCond]
    have hn : breakCond none ln = false := rfl
    rw [h0, hn]
    by_cases he : (rstripCRLF raw).isEmpty <;> simp [he, ih (ln + 1)]

/-- A positive bound m processed from counter ln is the unbounded loop
over the lines up to line number m. -/
theorem parseGo_some_take {α : Type} (proc : Bytes → α) {m : Int} (hm : 0 < m) :
    ∀ (lines : List Bytes) (ln : Nat),
      parseGo proc (some m) ln lines =
        parseGo proc none ln (lines.take (m.toNat + 1 - ln)) := by
  intro lines
  induction lines with
  | nil => intro ln; simp [parseGo]
  | cons raw rest ih =>
    intro ln
    by_cases hbr : m < (ln : Int)
    · have hb : breakCond (some m) ln = true := by
        simp [breakCond, hbr]
        omega
      have htake : m.toNat + 1 - ln = 0 := by omega
      rw [parseGo, hb, htake]
      simp [parseGo]
    · have hb : breakCond (some m) ln = false := by
        simp [breakCond]
        intro _
        omega
      have htake : m.toNat + 1 - ln = (m.toNat - ln) + 1 := by omega
      rw [parseGo, hb, htake, List.take_succ_cons, parseGo]
      have hn : breakCond none ln = false := rfl
      rw [hn]
      have harg : m.toNat - ln = m.toNat + 1 - (ln + 1) := by omega
      by_cases he : (rstripCRLF raw).isEmpty <;>
        simp [he, harg ▸ ih (ln + 1)]

/-- Lookup misses a mapped field list whose names all differ from the
key. -/
theorem lookup_map_fields_none {β : Type} (g : FieldDef → β) (k : String) :
    ∀ fields : List FieldDef, (fields.all (fun f => !(f.name == k))) = true →
      List.lookup k (fields.map (fun f => (f.name, g f))) = none := by
  intro fields
  induction fields with
  | nil => intro _; rfl
  | cons f rest ih =>
    intro hall
    rw [List.all_cons, Bool.and_eq_true] at hall
    have hne : (k == f.name) = false := by
      rcases hall with ⟨h1, _⟩
      cases hkf : k == f.name with
      | true =>
        have : k = f.name := beq_iff_eq.mp hkf
        rw [this] at h1
        simp at h1
      | false => rfl
    rw [List.map_cons, List.lookup_cons]
    rw [hne]
    exact ih hall.2

/-- Lookup passes over a first block in which the key is absent. -/
theorem lookup_append_of_none {β : Type} (k : String) (l2 : List (String × β)) :
    ∀ l1 : List (String × β), List.lookup k l1 = none →
      List.lookup k (l1 ++ l2) = List.lookup k l2 := by
  intro l1
  induction l1 with
  | nil => intro _; rfl
  | cons p rest ih =>
    intro h
    rw [List.lookup_cons] at h
    rw [List.cons_append, List.lookup_cons]
    cases hk : k == p.1 with
    | true => rw [hk] at h; cases h
    | false => rw [hk] at h; exact ih h

/-- With no rule of the cascade matching, classify reduces to the
suffix fallback with default 99. -/
theorem classify_eq_of_no_rule {text : String} {rulb : Option Int}
    (h : rules1to12Match text rulb = false) :
    classify text rulb =
      if fallback1 text then 2 else if fallback2 text then 1 else 99 := by
  unfold rules1to12Match at h
  simp only [Bool.or_eq_false_iff] at h
  obtain ⟨⟨⟨⟨⟨⟨⟨⟨⟨⟨⟨⟨h1, h2⟩, h3⟩, h4⟩, h5⟩, h6⟩, h7a⟩, h7b⟩, h8⟩, h9⟩, h10⟩, h11⟩, h12⟩ := h
  unfold classify
  rw [h1, h2, h3, h4, h5, h6, h7a, h7b, h8, h9, h10, h11, h12]
  rfl

/-- C3: classify with rulb = 24 returns category 1 for every subject
text via rule 1, even when the text contains the rule-11 equity keyword
(here appended to an arbitrary text), because the cascade
short-circuits at the first matching rule. -/
theorem classify_rulb24_short_circuit (text : String) :
    classify text (some 24) = 1 ∧
    cond11 (text ++ "股權") = true ∧
    classify (text ++ "股權") (some 24) = 1 := by
  refine ⟨?_, ?_, ?_⟩
  · simp [classify, cond1]
  · unfold cond11
    apply List.any_eq_true.mpr
    refine ⟨"股權", by simp, ?_⟩
    unfold pyIn
    rw [show (text ++ "股權").data = text.data ++ "股權".data from rfl]
    exact charsContain_append_self _ _
  · simp [classify, cond1]

/-- C6: classify is total with values in the fixed enumeration, and
returns 99 whenever no rule — including the two fallback suffix checks
— matches. -/
theorem classify_total_range (text : String) (rulb : Option Int) :
    classify text rulb ∈ ([1, 2, 3, 4, 7, 8, 11, 12, 13, 18, 19, 99] : List Int) ∧
    ((rules1to12Match text rulb || fallback1 text || fallback2 text) = false →
      classify text rulb = 99) := by
  constructor
  ·
    cases h1 : cond1 rulb with
    | true => simp [classify, h1]
    | false =>
      cases h2 : cond2 text with
      | true => simp [classify, h1, h2]
      | false =>
        cases h3 : cond3 text with
        | true => simp [classify, h1, h2, h3]
        | false =>
          cases h4 : cond4 text with
          | true => simp [classify, h1, h2, h3, h4]
          | false =>
            cases h5 : cond5 text with
            | true => simp [classify, h1, h2, h3, h4, h5]
            | false =>
              cases h6 : cond6 text with
              | true => simp [classify, h1, h2, h3, h4, h5, h6]
              | false =>
                cases h7 : cond7a text with
                | true => simp [classify, h1, h2, h3, h4, h5, h6, h7]
                | false =>
                  cases h8 : cond7b text with
                  | true => simp [classify, h1, h2, h3, h4, h5, h6, h7, h8]
                  | false =>
                    cases h9 : cond8 text with
                    | true => simp [classify, h1, h2, h3, h4, h5, h6, h7, h8, h9]
                    | false =>
                      cases h10 : cond9 text with
                      | true => simp [classify, h1, h2, h3, h4, h5, h6, h7, h8, h9, h10]
                      | false =>
                        cases h11 : cond10 text with
                        | true => simp [classify, h1, h2, h3, h4, h5, h6, h7, h8, h9, h10, h11]
                        | false =>
                          cases h12 : cond11 text with
                          | true => simp [classify, h1, h2, h3, h4, h5, h6, h7, h8, h9, h10, h11, h12]
                          | false =>
                            cases h13 : cond12 text with
                            | true => simp [classify, h1, h2, h3, h4, h5, h6, h7, h8, h9, h10, h11, h12, h13]
                            | false =>
                              cases h14 : fallback1 text with
                              | true => simp [classify, h1, h2, h3, h4, h5, h6, h7, h8, h9, h10, h11, h12, h13, h14]
                              | false =>
                                cases h15 : fallback2 text with
                                | true => simp [classify, h1, h2, h3, h4, h5, h6, h7, h8, h9, h10, h11, h12, h13, h14, h15]
                                | false =>
                                  simp [classify, h1, h2, h3, h4, h5, h6, h7, h8, h9, h10, h11, h12, h13, h14, h15]
  · intro h
    simp only [Bool.or_eq_false_iff] at h
    obtain ⟨⟨h12, hf1⟩, hf2⟩ := h
    rw [classify_eq_of_no_rule h12]
    simp [hf1, hf2]

/-- Witness for C6 at the concrete subject text x with null RULB. -/
theorem classify_total_range_witness :
    classify "x" none ∈ ([1, 2, 3, 4, 7, 8, 11, 12, 13, 18, 19, 99] : List Int) ∧
    classify "x" none = 99 :=
  ⟨(classify_total_range "x" none).1, (classify_total_range "x" none).2 (by decide)⟩

/-- C9: a max_records bound of 0 is falsy in the loop guard, so it
applies no bound at all: both drivers behave exactly as with the bound
omitted. -/
theorem parse_maxRecords_zero_unbounded (dec : Bytes → String) (lines : List Bytes) :
    sbjParseFile dec (some 0) lines = sbjParseFile dec none lines ∧
    tejParseFile dec (some 0) lines = tejParseFile dec none lines := by
  constructor
  · unfold sbjParseFile parseFile
    exact parseGo_zero _ lines 1
  · unfold tejParseFile parseFile
    exact parseGo_zero _ lines 1

/-- Counterexample to C2 as stated: for the subject text 公司 with rulb
0, no rule 1..12 matches, the last-2 suffix of the right-aligned form
does not contain the share marker, and the last-4 suffix (two padding
spaces followed by 公司) is not exactly equal to either marker — yet
classify returns 1, not 99, because the code strips the suffix before
the equality test. -/
theorem classify_fallback_unstripped_cex :
    rules1to12Match "公司" (some 0) = false ∧
    pyIn "股" (lastChars 2 (pyRjust 210 "公司")) = false ∧
    lastChars 4 (pyRjust 210 "公司") ≠ "股份" ∧
    lastChars 4 (pyRjust 210 "公司") ≠ "公司" ∧
    classify "公司" (some 0) = 1 := by
  refine ⟨by decide, by decide, by decide, by decide, by decide⟩

/-- C2 amended: when no rule 1..12 matches, classify returns 2 if the
last-2 suffix of the 210-character right-aligned subject contains the
share marker, else 1 if that form's last-4 suffix stripped of
whitespace exactly equals the shares or company marker, else 99. -/
theorem classify_fallback_amended (text : String) (rulb : Option Int)
    (h : rules1to12Match text rulb = false) :
    classify text rulb =
      if pyIn "股" (lastChars 2 (pyRjust 210 text)) = true then 2
      else if pyStrip (lastChars 4 (pyRjust 210 text)) = "股份" ∨
              pyStrip (lastChars 4 (pyRjust 210 text)) = "公司" then 1
      else 99 := by
  rw [classify_eq_of_no_rule h]
  have hf1 : fallback1 text = pyIn "股" (lastChars 2 (pyRjust 210 text)) := by
    unfold fallback1
    exact pyIn_share_pyStrip _
  cases hb1 : pyIn "股" (lastChars 2 (pyRjust 210 text)) with
  | true => simp [hf1, hb1]
  | false =>
    have hfa : fallback1 text = false := hf1.trans hb1
    simp only [hfa, Bool.false_eq_true, if_false]
    by_cases h2 : pyStrip (lastChars 4 (pyRjust 210 text)) = "股份" ∨
        pyStrip (lastChars 4 (pyRjust 210 text)) = "公司"
    · have hf2 : fallback2 text = true := by
        unfold fallback2
        rcases h2 with h2 | h2 <;> simp [h2]
      simp [hf2, h2]
    · have hf2 : fallback2 text = false := by
        unfold fallback2
        push_neg at h2
        simp [h2.1, h2.2]
      simp [hf2, h2]

/-- Witness for the amended C2 at the subject text AB with null rulb:
no rule matches and neither fallback fires, giving 99. -/
theorem classify_fallback_amended_witness : classify "AB" none = 99 := by
  have h := classify_fallback_amended "AB" none (by decide)
  rw [h]
  decide

/-- Counterexample to C1 as stated: a source whose first line is blank
and whose second line is one non-blank data line, under max_records 1,
yields zero records instead of one — the guard counts raw lines, and
the blank first line consumes the bound. -/
theorem maxRecords_counts_blank_lines_cex :
    rstripCRLF [10] = [] ∧
    rstripCRLF (asciiBytes "X") ≠ [] ∧
    (sbjParseFile asciiReplaceDecode (some 1) [[10], asciiBytes "X"]).length = 0 := by
  refine ⟨by decide, by decide, by decide⟩

/-- C1 amended: a positive max_records bound m makes both drivers
process exactly the first m raw lines — blank lines count toward the
bound — and on those lines they behave exactly like the unbounded
drivers. -/
theorem parse_maxRecords_bounds_raw_lines (dec : Bytes → String) (m : Int)
    (hm : 0 < m) (lines : List Bytes) :
    sbjParseFile dec (some m) lines = sbjParseFile dec none (lines.take m.toNat) ∧
    tejParseFile dec (some m) lines = tejParseFile dec none (lines.take m.toNat) := by
  constructor
  · unfold sbjParseFile parseFile
    rw [parseGo_some_take _ hm lines 1, Nat.add_sub_cancel]
  · unfold tejParseFile parseFile
    rw [parseGo_some_take _ hm lines 1, Nat.add_sub_cancel]

/-- Witness for the amended C1 at a concrete three-line source with
bound 2. -/
theorem parse_maxRecords_bounds_raw_lines_witness :
    sbjParseFile asciiReplaceDecode (some 2) [[10], [65], [66]] =
      sbjParseFile asciiReplaceDecode none ([[10], [65], [66]].take (2 : Int).toNat) ∧
    tejParseFile asciiReplaceDecode (some 2) [[10], [65], [66]] =
      tejParseFile asciiReplaceDecode none ([[10], [65], [66]].take (2 : Int).toNat) :=
  parse_maxRecords_bounds_raw_lines asciiReplaceDecode 2 (by decide) [[10], [65], [66]]

/-- C4: for any decode function, any schema and any buffer shorter than
the schema's total length, decoding the buffer equals decoding the
buffer right-padded with space bytes to the total length; short buffers
are padded, never rejected or truncated. -/
theorem decode_padding_invariance (dec : Bytes → String) (fields : List FieldDef)
    (raw : Bytes) (h : raw.length < totalLength fields) :
    decodeRecord dec fields raw =
      decodeRecord dec fields
        (raw ++ List.replicate (totalLength fields - raw.length) 32) := by
  have hlen : (raw ++ List.replicate (totalLength fields - raw.length) 32).length =
      totalLength fields := by
    rw [List.length_append, List.length_replicate]
    omega
  have hpad : padBuffer fields raw =
      padBuffer fields (raw ++ List.replicate (totalLength fields - raw.length) 32) := by
    unfold padBuffer
    rw [if_pos h, hlen, if_neg (by omega)]
  unfold decodeRecord
  rw [hpad]

/-- Witness for C4 at the one-byte buffer X against the subject
schema. -/
theorem decode_padding_invariance_witness :
    decodeRecord asciiReplaceDecode sbjFieldDefs (asciiBytes "X") =
      decodeRecord asciiReplaceDecode sbjFieldDefs
        (asciiBytes "X" ++
          List.replicate (totalLength sbjFieldDefs - (asciiBytes "X").length) 32) :=
  decode_padding_invariance asciiReplaceDecode sbjFieldDefs (asciiBytes "X") (by decide)

/-- C5: for any decode function, any schema and any buffer, decoding is
total and yields exactly one entry per field definition; every
Integer-kind field whose stripped decoded text is empty, fails the
integer parse, or contains the replacement character carries the null
value. -/
theorem decode_total_int_null (dec : Bytes → String) (fields : List FieldDef)
    (raw : Bytes) :
    (decodeRecord dec fields raw).length = fields.length ∧
    (∀ f ∈ fields, f.ftype = FType.I →
      (pyStrip (dec (sliceChunk (padBuffer fields raw) f)) = "" ∨
       pyInt (pyStrip (dec (sliceChunk (padBuffer fields raw) f))) = none ∨
       '�' ∈ (pyStrip (dec (sliceChunk (padBuffer fields raw) f))).data) →
      (f.name, Value.int none) ∈ decodeRecord dec fields raw) := by
  constructor
  · unfold decodeRecord
    exact List.length_map _ _
  · intro f hf hI hcase
    have hnone : pyInt (pyStrip (dec (sliceChunk (padBuffer fields raw) f))) = none := by
      rcases hcase with hempty | hnone | hrepl
      · rw [hempty]
        rfl
      · exact hnone
      · exact pyInt_replacement hrepl
    have hval : decodeField dec (padBuffer fields raw) f = Value.int none := by
      unfold decodeField
      rw [hI]
      show Value.int (pyInt (pyStrip (dec (sliceChunk (padBuffer fields raw) f)))) =
        Value.int none
      rw [hnone]
    unfold decodeRecord
    exact List.mem_map.mpr ⟨f, hf, by simp [hval]⟩

/-- Witness for C5: the all-blank padded empty buffer against the
subject schema has 13 entries, and its RULB field (blank text) is
null. -/
theorem decode_total_int_null_witness :
    (decodeRecord asciiReplaceDecode sbjFieldDefs []).length = sbjFieldDefs.length ∧
    ("RULB", Value.int none) ∈ decodeRecord asciiReplaceDecode sbjFieldDefs [] := by
  have h := decode_total_int_null asciiReplaceDecode sbjFieldDefs []
  exact ⟨h.1, h.2 ⟨"RULB", 71, 3, FType.I⟩ (by decide) rfl (Or.inl (by decide))⟩

/-- Stripped all-blank lines leave nothing after the non-blank filter. -/
theorem filter_nonblank_nil : ∀ ls : List Bytes, (∀ l ∈ ls, rstripCRLF l = []) →
    (ls.map rstripCRLF).filter (fun r => !r.isEmpty) = []
  | [], _ => rfl
  | a :: t, h => by
    rw [List.map_cons, List.filter_cons, h a (List.mem_cons_self a t)]
    simp only [List.isEmpty_nil, Bool.not_true, Bool.false_eq_true, if_false]
    exact filter_nonblank_nil t (fun l hl => h l (List.mem_cons_of_mem a hl))

/-- C7: three data lines interleaved with two blank lines yield exactly
the three processed records in original order, and an all-blank source
yields the explicitly signalled empty result, not an error. -/
theorem parse_blank_lines_empty_result (dec : Bytes → String)
    (d1 b1 d2 b2 d3 : Bytes) (blanks : List Bytes)
    (hd1 : rstripCRLF d1 ≠ []) (hd2 : rstripCRLF d2 ≠ []) (hd3 : rstripCRLF d3 ≠ [])
    (hb1 : rstripCRLF b1 = []) (hb2 : rstripCRLF b2 = [])
    (hblanks : ∀ l ∈ blanks, rstripCRLF l = []) :
    sbjParse dec none [d1, b1, d2, b2, d3] =
      ParseOutcome.table
        [sbjProcessLine dec (rstripCRLF d1),
         sbjProcessLine dec (rstripCRLF d2),
         sbjProcessLine dec (rstripCRLF d3)] ∧
    sbjParse dec none blanks = ParseOutcome.emptyResult := by
  have he1 : (rstripCRLF d1).isEmpty = false := by
    cases hx : rstripCRLF d1 with
    | nil => exact absurd hx hd1
    | cons a t => rfl
  have he2 : (rstripCRLF d2).isEmpty = false := by
    cases hx : rstripCRLF d2 with
    | nil => exact absurd hx hd2
    | cons a t => rfl
  have he3 : (rstripCRLF d3).isEmpty = false := by
    cases hx : rstripCRLF d3 with
    | nil => exact absurd hx hd3
    | cons a t => rfl
  constructor
  · unfold sbjParse sbjParseFile parseFile
    rw [parseGo_none_filter (sbjProcessLine dec) [d1, b1, d2, b2, d3] 1]
    simp [List.filter_cons, he1, he2, he3, hb1, hb2]
  · unfold sbjParse sbjParseFile parseFile
    rw [parseGo_none_filter (sbjProcessLine dec) blanks 1,
      filter_nonblank_nil blanks hblanks]
    rfl

/-- Witness for C7 at a concrete five-line source (data lines A, B, C
with CRLF variants) and a concrete all-blank two-line source. -/
theorem parse_blank_lines_empty_result_witness :
    sbjParse asciiReplaceDecode none [[65, 10], [10], [66, 10], [13, 10], [67]] =
      ParseOutcome.table
        [sbjProcessLine asciiReplaceDecode (rstripCRLF [65, 10]),
         sbjProcessLine asciiReplaceDecode (rstripCRLF [66, 10]),
         sbjProcessLine asciiReplaceDecode (rstripCRLF [67])] ∧
    sbjParse asciiReplaceDecode none [[10], [13, 10]] = ParseOutcome.emptyResult :=
  parse_blank_lines_empty_result asciiReplaceDecode [65, 10] [10] [66, 10] [13, 10] [67]
    [[10], [13, 10]] (by decide) (by decide) (by decide) (by decide) (by decide)
    (by decide)

/-- C8: on every content-layout record the derived HM_ANN entry is
HR_REALS floor-divided by 100 and null exactly when HR_REALS is null,
and the derived CLA entry is the first character of the decoded DBCL
text and empty exactly when DBCL is empty. -/
theorem tej_derived_fields (dec : Bytes → String) (raw : Bytes) :
    (∀ x : Int, getInt (decodeRecord dec tejFieldDefs raw) "HR_REALS" = some x →
      List.lookup "HM_ANN" (tejProcessLine dec raw) =
        some (Value.int (some (Int.fdiv x 100)))) ∧
    (getInt (decodeRecord dec tejFieldDefs raw) "HR_REALS" = none →
      List.lookup "HM_ANN" (tejProcessLine dec raw) = some (Value.int none)) ∧
    (∀ (c : Char) (cs : List Char),
      (getText (decodeRecord dec tejFieldDefs raw) "DBCL").data = c :: cs →
      List.lookup "CLA" (tejProcessLine dec raw) = some (Value.text ⟨[c]⟩)) ∧
    ((getText (decodeRecord dec tejFieldDefs raw) "DBCL") = "" →
      List.lookup "CLA" (tejProcessLine dec raw) = some (Value.text "")) := by
  have hnone1 : List.lookup "HM_ANN" (decodeRecord dec tejFieldDefs raw) = none := by
    unfold decodeRecord
    exact lookup_map_fields_none _ "HM_ANN" tejFieldDefs (by decide)
  have hnone2 : List.lookup "CLA" (decodeRecord dec tejFieldDefs raw) = none := by
    unfold decodeRecord
    exact lookup_map_fields_none _ "CLA" tejFieldDefs (by decide)
  have hm_eq : List.lookup "HM_ANN" (tejProcessLine dec raw) =
      some (Value.int
        (match getInt (decodeRecord dec tejFieldDefs raw) "HR_REALS" with
         | some h => some (Int.fdiv h 100)
         | none => none)) := by
    simp only [tejProcessLine]
    rw [lookup_append_of_none "HM_ANN" _ _ hnone1]
    simp [List.lookup_cons]
  have hcla_eq : List.lookup "CLA" (tejProcessLine dec raw) =
      some (Value.text
        (if getText (decodeRecord dec tejFieldDefs raw) "DBCL" == "" then ""
         else ⟨(getText (decodeRecord dec tejFieldDefs raw) "DBCL").data.take 1⟩)) := by
    simp only [tejProcessLine]
    rw [lookup_append_of_none "CLA" _ _ hnone2]
    simp [List.lookup_cons]
  refine ⟨?_, ?_, ?_, ?_⟩
  · intro x hx
    rw [hm_eq, hx]
  · intro hx
    rw [hm_eq, hx]
  · intro c cs hdb
    rw [hcla_eq]
    have hne : (getText (decodeRecord dec tejFieldDefs raw) "DBCL" == "") = false := by
      cases hbeq : getText (decodeRecord dec tejFieldDefs raw) "DBCL" == "" with
      | true =>
        have : getText (decodeRecord dec tejFieldDefs raw) "DBCL" = "" := eq_of_beq hbeq
        rw [this] at hdb
        cases hdb
      | false => rfl
    rw [hne]
    simp only [Bool.false_eq_true, if_false]
    rw [hdb]
    rfl
  · intro hx
    rw [hcla_eq, hx]
    rfl

/-- Sample content-layout line: blanks except HR_REALS 213440 at bytes
59..64 and DBCL A1234 at bytes 181..185; shorter than the 268-byte
record and hence space-padded by the decoder. -/
def tejSampleRaw : Bytes :=
  asciiBytes (⟨List.replicate 59 ' '⟩ ++ "213440" ++ ⟨List.replicate 116 ' '⟩ ++ "A1234")

/-- Witness for C8: the sample line yields HM_ANN 2134 and CLA A. -/
theorem tej_derived_fields_witness :
    List.lookup "HM_ANN" (tejProcessLine asciiReplaceDecode tejSampleRaw) =
      some (Value.int (some 2134)) ∧
    List.lookup "CLA" (tejProcessLine asciiReplaceDecode tejSampleRaw) =
      some (Value.text "A") := by
  have h := tej_derived_fields asciiReplaceDecode tejSampleRaw
  constructor
  · have h1 := h.1 213440 (by decide)
    rw [show Int.fdiv 213440 100 = 2134 from by decide] at h1
    exact h1
  · exact h.2.2.1 'A' "1234".data (by decide)

/-- C10: for a trimmed subject text shorter than 2 (respectively 4)
characters, the stored TT1 (respectively TT2) suffix keeps the
left-padding spaces of the 210-character right alignment, while the
classify fallback tests the whitespace-stripped copy; the stored value
and the tested value differ. -/
theorem sbj_suffix_untrimmed_vs_fallback (text : String) (hs : pyStrip text = text) :
    (text.length < 2 →
      lastChars 2 (pyRjust 210 text) =
        ⟨List.replicate (2 - text.length) ' ' ++ text.data⟩ ∧
      pyStrip (lastChars 2 (pyRjust 210 text)) = text ∧
      lastChars 2 (pyRjust 210 text) ≠ pyStrip (lastChars 2 (pyRjust 210 text))) ∧
    (text.length < 4 →
      lastChars 4 (pyRjust 210 text) =
        ⟨List.replicate (4 - text.length) ' ' ++ text.data⟩ ∧
      pyStrip (lastChars 4 (pyRjust 210 text)) = text ∧
      lastChars 4 (pyRjust 210 text) ≠ pyStrip (lastChars 4 (pyRjust 210 text))) := by
  have hdl : text.data.length = text.length := rfl
  constructor
  · intro h2
    have e2 := @lastChars_pyRjust text 2 210 (by omega) (by omega)
    have s2 : pyStrip (lastChars 2 (pyRjust 210 text)) = text := by
      rw [e2, pyStrip_replicate_space]
      exact hs
    have len2 : (lastChars 2 (pyRjust 210 text)).length = 2 := by
      rw [e2]
      show (List.replicate (2 - text.length) ' ' ++ text.data).length = 2
      rw [List.length_append, List.length_replicate, hdl]
      omega
    refine ⟨e2, s2, ?_⟩
    intro heq
    have : (2 : Nat) = text.length := by rw [← len2, heq, s2]
    omega
  · intro h4
    have e4 := @lastChars_pyRjust text 4 210 (by omega) (by omega)
    have s4 : pyStrip (lastChars 4 (pyRjust 210 text)) = text := by
      rw [e4, pyStrip_replicate_space]
      exact hs
    have len4 : (lastChars 4 (pyRjust 210 text)).length = 4 := by
      rw [e4]
      show (List.replicate (4 - text.length) ' ' ++ text.data).length = 4
      rw [List.length_append, List.length_replicate, hdl]
      omega
    refine ⟨e4, s4, ?_⟩
    intro heq
    have : (4 : Nat) = text.length := by rw [← len4, heq, s4]
    omega

/-- Witness for C10 at the one-character subject A (both suffixes) and
at the two-character subject 公司 (suffix4 only, the length excluded
from the suffix2 case). -/
theorem sbj_suffix_untrimmed_vs_fallback_witness :
    (lastChars 2 (pyRjust 210 "A") =
        ⟨List.replicate (2 - "A".length) ' ' ++ "A".data⟩ ∧
      pyStrip (lastChars 2 (pyRjust 210 "A")) = "A" ∧
      lastChars 2 (pyRjust 210 "A") ≠ pyStrip (lastChars 2 (pyRjust 210 "A"))) ∧
    (lastChars 4 (pyRjust 210 "公司") =
        ⟨List.replicate (4 - "公司".length) ' ' ++ "公司".data⟩ ∧
      pyStrip (lastChars 4 (pyRjust 210 "公司")) = "公司" ∧
      lastChars 4 (pyRjust 210 "公司") ≠ pyStrip (lastChars 4 (pyRjust 210 "公司"))) :=
  ⟨(sbj_suffix_untrimmed_vs_fallback "A" (by decide)).1 (by decide),
   (sbj_suffix_untrimmed_vs_fallback "公司" (by decide)).2 (by decide)⟩
